import Mathlib

/-!
Verification of the video-to-text transcription pipeline
(`app/services/transcription_service.py`, `app/services/transcription_controller.py`,
`app/utils/validation.py`, `app/utils/file_manager.py`).

The Python code is shallowly embedded: every external effect (filesystem
probes, the moviepy decoder, the Google speech-recognition backend, wall-clock
time) is supplied through an explicit environment record, and each embedded
function returns, besides its Python return value, the observables the
specification talks about (the ordered list of progress percentages handed to
`_report_progress_throttled`, the `recognizer.record` calls issued, and whether
the temporary audio artifact still exists on return).

Durations, timestamps and percentages are modelled as rationals; the Python
floats in the source only ever hold such values on the paths analysed here.
-/

namespace V2T

/-- `app/core/models.py` `TranscriptionResult`.  `processing_time` is the
wall-clock difference `time.time() - start_time`; the clock is abstracted as a
single `elapsed` value supplied by the environment. -/
structure TranscriptionResult where
  success : Bool
  transcript : String
  error_message : Option String
  processing_time : ℚ
  output_file_path : Option String
  deriving DecidableEq, Repr

/-- `app/core/models.py` `TranscriptionRequest` (the `datetime` timestamp is
abstracted to a natural number; nothing reads it back). -/
structure TranscriptionRequest where
  video_path : String
  output_path : String
  output_format : String
  /-- `verbose` is dynamically typed in Python; `none` stands for a non-boolean
  value (the case `validate_verbose_mode` rejects). -/
  verbose : Option Bool
  timestamp : ℕ
  deriving DecidableEq, Repr

/-- `app/core/models.py` `ProgressUpdate` (timestamp abstracted). -/
structure ProgressUpdate where
  percentage : ℚ
  current_step : String
  message : String
  deriving DecidableEq, Repr

/-! ## Speech-recognition capability (external, `speech_recognition`)

`recognizer.recognize_google` either returns text, raises
`sr.UnknownValueError` (audio understood as silence/noise) or raises
`sr.RequestError` (service unusable).  `recognizer.record(source, duration,
offset)` is modelled as handing the recognizer the audio segment
`[offset, offset + duration)` of the temporary file, which is the capability
contract the code relies on; the outcome of recognizing a segment is an
arbitrary function of the segment supplied by the environment. -/

inductive RecognitionOutcome where
  | ok (text : String)
  | unknownValue
  | requestError (msg : String)
  deriving DecidableEq, Repr

/-- Environment of `_transcribe_audio_file_optimized`: the `source.DURATION`
of the temporary audio file (`none` when the WAV header does not determine
it), the per-segment recognition outcome (arguments: offset and length of the
recorded window, in seconds) and the whole-file outcome used by the
unknown-duration fallback. -/
structure RecEnv where
  duration : Option ℚ
  recognizeSeg : ℚ → ℚ → RecognitionOutcome
  recognizeWhole : RecognitionOutcome

/-- Python's `str.strip()` on the character list: drop leading and trailing
whitespace.  (Structurally recursive so that concrete instances reduce.) -/
def stripChars (l : List Char) : List Char :=
  ((l.dropWhile Char.isWhitespace).reverse.dropWhile Char.isWhitespace).reverse

/-- Python's `str.strip()`. -/
def pyStrip (s : String) : String := ⟨stripChars s.data⟩

/-- `chunk_duration = 30` (seconds). -/
def chunk_duration : ℚ := 30

/-- `num_chunks = int(source_duration / chunk_duration) + 1`. -/
def numChunks (dur : ℚ) : ℕ := (⌊dur / chunk_duration⌋).toNat + 1

/-- Result of the chunk loop of `_transcribe_audio_file_optimized`:
either the loop ran to completion (`done`, with the accumulated
`transcript_parts`, the chunk progress percentages emitted and the
`recognizer.record` windows issued) or an exception aborted it (`err`,
with the message of the raised exception). -/
inductive LoopOut where
  | done (parts : List String) (emits : List ℚ) (calls : List (ℚ × ℚ))
  | err (msg : String) (emits : List ℚ) (calls : List (ℚ × ℚ))
  deriving DecidableEq, Repr

/-- Prepend the observables of the current iteration (progress percentage,
record window, and — when recognition succeeded with non-blank text — the
stripped chunk text) onto the outcome of the remaining iterations. -/
def LoopOut.prepend (p : ℚ) (c : ℚ × ℚ) (part : Option String) : LoopOut → LoopOut
  | .done parts es cs => .done (part.toList ++ parts) (p :: es) (c :: cs)
  | .err m es cs => .err m (p :: es) (c :: cs)

/-- The `for i in range(num_chunks)` loop body of
`_transcribe_audio_file_optimized` (lines 540–566).  `i` is the next chunk
index, `fuel` the number of range elements left, `n = num_chunks`, and
`cancel k` tells whether `self._cancel_event.is_set()` observes the event at
the `k`-th cancellation check of the recognizer (check `0` is the one before
any chunk; chunk `i`'s check is number `1 + i`). -/
def chunkLoop (env : RecEnv) (cancel : ℕ → Bool) (dur : ℚ) (n : ℕ) :
    ℕ → ℕ → LoopOut
  | _, 0 => .done [] [] []
  | i, fuel + 1 =>
    if cancel (1 + i) then
      .err "Transcription was cancelled" [] []
    else if dur ≤ chunk_duration * i then
      -- `if start_time >= source_duration: break`
      .done [] [] []
    else
      let startT : ℚ := chunk_duration * i
      let endT : ℚ := min (chunk_duration * (i + 1)) dur
      let p : ℚ := 95 + ((i : ℚ) / (n : ℚ)) * 5
      match env.recognizeSeg startT (endT - startT) with
      | .ok t =>
        -- `if chunk_text.strip(): transcript_parts.append(chunk_text.strip())`
        (chunkLoop env cancel dur n (i + 1) fuel).prepend p (startT, endT - startT)
          (if pyStrip t ≠ "" then some (pyStrip t) else none)
      | .unknownValue =>
        -- `except sr.UnknownValueError: continue`
        (chunkLoop env cancel dur n (i + 1) fuel).prepend p (startT, endT - startT) none
      | .requestError m =>
        .err ("Could not request results from Google Speech Recognition service: " ++ m)
          [p] [(startT, endT - startT)]

/-- Observables of one run of `_transcribe_audio_file_optimized`. -/
structure RecRun where
  /-- `.ok transcript` if the function returned, `.error msg` if it raised
  an exception carrying `msg` (the code wraps `sr` errors into plain
  `Exception`s before re-raising). -/
  result : Except String String
  /-- percentages handed to `_report_progress_throttled`, in order. -/
  emitted : List ℚ
  /-- `(offset, duration)` of each `recognizer.record` call, in order. -/
  calls : List (ℚ × ℚ)
  /-- whether the unknown-duration whole-file fallback `record(source)` ran. -/
  wholeFile : Bool
  deriving Repr

/-- `_transcribe_audio_file_optimized` (transcription_service.py lines
479–586).  `tempExists` is `self._temp_audio_file and os.path.exists(...)`;
`cancel` as in `chunkLoop`.  The ambient-noise calibration
(`adjust_for_ambient_noise`) only mutates recognizer thresholds and is not
observable here. -/
def transcribe_audio_file_optimized (env : RecEnv) (tempExists : Bool)
    (cancel : ℕ → Bool) : RecRun :=
  -- progress 82: "Loading audio file for recognition..."
  if ¬tempExists then
    ⟨.error "Temporary audio file not found", [82], [], false⟩
  else if cancel 0 then
    ⟨.error "Transcription was cancelled", [82], [], false⟩
  else
    -- progress 85 ("Processing audio data..."), calibration, progress 90
    match env.duration with
    | none =>
      -- fallback: read entire file if duration unknown
      match env.recognizeWhole with
      | .ok t => ⟨.ok t, [82, 85, 90], [], true⟩
      | .unknownValue =>
        ⟨.error "Google Speech Recognition could not understand the audio",
          [82, 85, 90], [], true⟩
      | .requestError m =>
        ⟨.error ("Could not request results from Google Speech Recognition service: " ++ m),
          [82, 85, 90], [], true⟩
    | some dur =>
      let n := numChunks dur
      match chunkLoop env cancel dur n 0 n with
      | .done parts es cs =>
        ⟨.ok (String.intercalate " " parts), [82, 85, 90] ++ es, cs, false⟩
      | .err m es cs => ⟨.error m, [82, 85, 90] ++ es, cs, false⟩

/-! ## TranscriptionService.transcribe_video (the Engine)

`transcribe_video` runs the staged pipeline.  Every fallible external call is
an environment field.  The cancellation event (`self._cancel_event`) is set at
most once per run and never cleared while the run is in flight, so the
observations of the per-stage `is_set()` checks form a monotone Boolean
sequence: `cancelFrom = some t` means the event is first observed at the
`t`-th check of the run (checks are numbered globally: 0–3 for the four
engine-stage checks, `4 + k` for the recognizer's check `k`);
`cancelFrom = none` means the run is never cancelled. -/

/-- Whether the `k`-th cancellation check observes the event. -/
def cancelAt (cancelFrom : Option ℕ) (k : ℕ) : Bool :=
  match cancelFrom with
  | none => false
  | some t => t ≤ k

/-- Environment of one `transcribe_video` run. -/
structure EngineEnv where
  /-- `os.path.isfile(video_path)` (`_validate_file_existence`). -/
  fileExists : Bool
  /-- `os.path.getsize(video_path) / (1024 * 1024)`; above `_chunk_size_mb
  = 50` the decoder is opened with a larger audio buffer and capped sample
  rate — observationally the two branches differ only in decoder options. -/
  fileSizeMB : ℚ
  /-- outcome of `mp.VideoFileClip(...)` (`.error msg` = raised exception). -/
  loadResult : Except String Unit
  /-- `video.audio`: `none` models a container without an audio stream (the
  code then raises `ValueError("Video file contains no audio track")`).
  The `audio.with_fps(22050)` downsample only affects decoder quality. -/
  audioTrack : Option Unit
  /-- outcome of `audio.write_audiofile(temp_audio_path, ...)`. -/
  writeResult : Except String Unit
  /-- recognizer-stage environment. -/
  recog : RecEnv
  /-- cancellation observation schedule (see above). -/
  cancelFrom : Option ℕ
  /-- `time.time() - start_time` at run end (wall clock abstracted). -/
  elapsed : ℚ

/-- Observables of one `transcribe_video` run. -/
structure EngineRun where
  result : TranscriptionResult
  /-- percentages handed to `_report_progress_throttled`, in order. -/
  emitted : List ℚ
  /-- whether `_create_temp_audio_file` ran (the temp WAV was created). -/
  tempCreated : Bool
  /-- whether the temp WAV still exists when `transcribe_video` returns
  (i.e. it was created and no `_cleanup_temp_files` ran afterwards). -/
  tempLeft : Bool
  /-- whether `audio.write_audiofile` ran to completion. -/
  audioWriteCompleted : Bool
  deriving Repr

/-- `TranscriptionResult` of a failed stage (all failure paths return
`success=False`, empty transcript, a stage-specific message, no output path). -/
def failedResult (msg : String) (elapsed : ℚ) : TranscriptionResult :=
  ⟨false, "", some msg, elapsed, none⟩

/-- `_create_cancelled_result`. -/
def cancelledResult (elapsed : ℚ) : TranscriptionResult :=
  ⟨false, "", some "Transcription was cancelled by user", elapsed, none⟩

/-- `TranscriptionService.transcribe_video` (transcription_service.py lines
71–251).  The top-level `try/except` of the source converts any escaping
exception into a failed result; in this embedding each stage's exception is
already routed to its dedicated handler, so the function is total and never
"raises".  Stage structure:
step 1 load (10%), step 2 extract audio (30%), step 3 write temp WAV (50%),
step 4 chunked recognition (80%), step 5 complete (100%).  The temp WAV is
created lazily just before `write_audiofile`; `_cleanup_temp_files` runs on
the cancel-at-step-4 path, the recognition-failure path and the success path —
but not on the `write_audiofile`-failure path, which only releases the
video/audio handles. -/
def transcribe_video (video_path : String) (env : EngineEnv) : EngineRun :=
  if ¬env.fileExists then
    ⟨failedResult ("Video file not found: " ++ video_path) env.elapsed,
      [], false, false, false⟩
  else
    -- Step 1 (10%): load video
    if cancelAt env.cancelFrom 0 then
      ⟨cancelledResult env.elapsed, [10], false, false, false⟩
    else match env.loadResult with
    | .error m =>
      ⟨failedResult ("Failed to load video: " ++ m) env.elapsed, [10], false, false, false⟩
    | .ok _ =>
      -- Step 2 (30%): extract audio
      if cancelAt env.cancelFrom 1 then
        ⟨cancelledResult env.elapsed, [10, 30], false, false, false⟩
      else match env.audioTrack with
      | none =>
        ⟨failedResult "Failed to extract audio: Video file contains no audio track"
          env.elapsed, [10, 30], false, false, false⟩
      | some _ =>
        -- Step 3 (50%): write audio to temp file
        if cancelAt env.cancelFrom 2 then
          ⟨cancelledResult env.elapsed, [10, 30, 50], false, false, false⟩
        else match env.writeResult with
        | .error m =>
          -- only `_cleanup_video_resources` runs here; the temp WAV created
          -- just above `write_audiofile` is NOT removed on this path
          ⟨failedResult ("Failed to write audio file: " ++ m) env.elapsed,
            [10, 30, 50], true, true, false⟩
        | .ok _ =>
          -- Step 4 (80%): chunked recognition
          if cancelAt env.cancelFrom 3 then
            ⟨cancelledResult env.elapsed, [10, 30, 50, 80], true, false, true⟩
          else
            let rr := transcribe_audio_file_optimized env.recog true
              (fun k => cancelAt env.cancelFrom (4 + k))
            match rr.result with
            | .error m =>
              ⟨failedResult ("Speech recognition failed: " ++ m) env.elapsed,
                [10, 30, 50, 80] ++ rr.emitted, true, false, true⟩
            | .ok t =>
              -- Step 5 (100%): complete
              ⟨⟨true, t, none, env.elapsed, none⟩,
                [10, 30, 50, 80] ++ rr.emitted ++ [100], true, false, true⟩

/-! ## Progress throttling (`_report_progress_throttled`) -/

/-- The milestone percentages that bypass throttling. -/
def milestones : List ℚ := [0, 10, 30, 50, 80, 100]

/-- `_progress_update_interval = 0.1` seconds. -/
def progress_update_interval : ℚ := 1 / 10

/-- `_report_progress_throttled` folded over a run: input is the list of
(percentage, `time.time()` at the call) pairs in call order, `last` is
`self._last_progress_update`; output is the subsequence of percentages
actually delivered to the callback. -/
def throttleRun (last : ℚ) : List (ℚ × ℚ) → List ℚ
  | [] => []
  | (p, t) :: rest =>
    if progress_update_interval ≤ t - last ∨ p ∈ milestones then
      p :: throttleRun t rest
    else
      throttleRun last rest

/-- Attach an arbitrary wall-clock time to each emission (emission `i`
happens at time `ts i`). -/
def withTimes (ps : List ℚ) (ts : ℕ → ℚ) : List (ℚ × ℚ) :=
  ps.enum.map fun ip => (ip.2, ts ip.1)

/-! ## Validation (`app/utils/validation.py`)

The filesystem probes (`Path.exists`, `Path.is_file`, `os.access`,
`Path.stat().st_size`, `mkdir`) are supplied through per-path stat records.
`pathlib`'s pure string operations (`Path.suffix`, `Path.name`,
`Path.with_suffix`) are modelled below for ordinary path strings. -/

/-- Python's `str.split(sep)` for a one-character separator, on character
lists (structurally recursive). -/
def splitOnChar (c : Char) : List Char → List (List Char)
  | [] => [[]]
  | x :: xs =>
    match splitOnChar c xs with
    | [] => [[]]
    | g :: gs => if x = c then [] :: g :: gs else (x :: g) :: gs

/-- Python's `str.lower()` (ASCII). -/
def pyLower (s : String) : String := ⟨s.data.map Char.toLower⟩

/-- `Path(p).name`: the final path component. -/
def pathName (p : String) : String :=
  ⟨(splitOnChar '/' p.data).getLastD []⟩

/-- `Path(p).suffix` for ordinary names: the final `.`-extension including the
dot; empty for names without a dot, hidden files (`.bashrc`) and names with a
trailing dot. -/
def pathSuffix (p : String) : String :=
  let parts := splitOnChar '.' (pathName p).data
  if parts.length ≤ 1 then ""
  else if parts.headD [] = [] then ""
  else if parts.getLastD [] = [] then ""
  else ⟨'.' :: parts.getLastD []⟩

/-- `Path(p).with_suffix(suf)` for ordinary names: replace (or append) the
extension. -/
def withSuffix (p : String) (suf : String) : String :=
  (p.dropRight (pathSuffix p).length) ++ suf

/-- `FileValidator.SUPPORTED_EXTENSIONS` (keys). -/
def SUPPORTED_EXTENSIONS : List String :=
  [".mp4", ".avi", ".mov", ".mkv", ".wmv", ".flv", ".webm",
   ".m4v", ".3gp", ".ogv", ".ts", ".mts", ".m2ts"]

/-- `FileValidator.MIN_FILE_SIZE` (bytes). -/
def MIN_FILE_SIZE : ℕ := 1024

/-- `FileValidator.MAX_FILE_SIZE` (bytes). -/
def MAX_FILE_SIZE : ℕ := 10 * 1024 * 1024 * 1024

/-- `validation.py` `ValidationResult`, restricted to the fields the
controller reads (`is_valid`, `error_message`); the `warning_message`,
`suggestions` and `details` fields are write-only for this core. -/
structure ValidationResult where
  is_valid : Bool
  error_message : Option String
  deriving DecidableEq, Repr

/-- Filesystem facts about the source video path. -/
structure VideoStat where
  pathExists : Bool
  isFile : Bool
  /-- `os.access(filepath, os.R_OK)`. -/
  readable : Bool
  /-- `Path(filepath).stat().st_size`. -/
  size : ℕ
  deriving DecidableEq, Repr

/-- `FileValidator.validate_video_file` (validation.py lines 72–200): the
checks run in source order and the FIRST failing check's message is returned.
(The "File is too large" message's GB formatting is elided.) -/
def validate_video_file (filepath : String) (st : VideoStat) : ValidationResult :=
  if filepath = "" then ⟨false, some "No file path provided"⟩
  else if ¬st.pathExists then ⟨false, some ("File does not exist: " ++ filepath)⟩
  else if ¬st.isFile then ⟨false, some ("Path is not a file: " ++ filepath)⟩
  else if pyLower (pathSuffix filepath) ∉ SUPPORTED_EXTENSIONS then
    ⟨false, some ("Unsupported file format: " ++ pyLower (pathSuffix filepath))⟩
  else if ¬st.readable then ⟨false, some ("File is not readable: " ++ filepath)⟩
  else if st.size = 0 then ⟨false, some "File is empty"⟩
  else if st.size < MIN_FILE_SIZE then
    ⟨false, some ("File is too small (" ++ toString st.size ++ " bytes)")⟩
  else if st.size > MAX_FILE_SIZE then ⟨false, some "File is too large"⟩
  else ⟨true, none⟩

/-- Filesystem facts about the output path. -/
structure OutputStat where
  parentExists : Bool
  /-- whether `parent_dir.mkdir(parents=True, exist_ok=True)` succeeds. -/
  mkdirOk : Bool
  /-- `os.access(parent_dir, os.W_OK)`. -/
  parentWritable : Bool
  pathExists : Bool
  isFile : Bool
  /-- `os.access(filepath, os.W_OK)`. -/
  writable : Bool
  deriving DecidableEq, Repr

/-- The characters `'<>:"|?*'` rejected in output filenames. -/
def invalidFilenameChars : List Char := ['<', '>', ':', '\"', '|', '?', '*']

/-- `FileValidator.validate_output_path` (validation.py lines 202–323);
first failing check's message, directory names elided from two messages. -/
def validate_output_path (filepath : String) (st : OutputStat) : ValidationResult :=
  if filepath = "" then ⟨false, some "No output path provided"⟩
  else if ¬st.parentExists ∧ ¬st.mkdirOk then
    ⟨false, some "Cannot create output directory"⟩
  else if ¬st.parentWritable then ⟨false, some "Output directory is not writable"⟩
  else if st.pathExists then
    if ¬st.isFile then
      ⟨false, some ("Output path exists but is not a file: " ++ filepath)⟩
    else if ¬st.writable then
      ⟨false, some ("Cannot overwrite existing file: " ++ filepath)⟩
    else ⟨true, none⟩  -- valid, with an overwrite warning
  else if pathName filepath = "" then ⟨false, some "Invalid filename"⟩
  else if (pathName filepath).data.any (· ∈ invalidFilenameChars) then
    ⟨false, some ("Filename contains invalid characters: " ++ pathName filepath)⟩
  else if (pathName filepath).length > 255 then ⟨false, some "Filename is too long"⟩
  else ⟨true, none⟩

/-- `SettingsValidator.VALID_OUTPUT_FORMATS`. -/
def VALID_OUTPUT_FORMATS : List String := ["txt", "json"]

/-- `SettingsValidator.validate_output_format` (validation.py lines 361–391). -/
def validate_output_format (format_value : String) : ValidationResult :=
  if format_value = "" then ⟨false, some "Output format not specified"⟩
  else if pyLower format_value ∉ VALID_OUTPUT_FORMATS then
    ⟨false, some ("Invalid output format: " ++ format_value)⟩
  else ⟨true, none⟩

/-- `SettingsValidator.validate_verbose_mode` (validation.py lines 393–413):
rejects non-boolean values (`none` in this embedding; the type name in the
message is elided). -/
def validate_verbose_mode (verbose_value : Option Bool) : ValidationResult :=
  match verbose_value with
  | none => ⟨false, some "Verbose mode must be boolean"⟩
  | some _ => ⟨true, none⟩

/-- `validate_transcription_request` (validation.py lines 553–592): runs the
four category validators, collects one prefixed message per failed category,
and returns `(errors == [], errors)`. -/
def validate_transcription_request (video_path output_path : String)
    (output_format : String) (verbose : Option Bool)
    (vst : VideoStat) (ost : OutputStat) : Bool × List String :=
  let videoR := validate_video_file video_path vst
  let outputR := validate_output_path output_path ost
  let formatR := validate_output_format output_format
  let verboseR := validate_verbose_mode verbose
  let errors : List String :=
    (if ¬videoR.is_valid then
      ["Video file: " ++ videoR.error_message.getD ""] else []) ++
    (if ¬outputR.is_valid then
      ["Output path: " ++ outputR.error_message.getD ""] else []) ++
    (if ¬formatR.is_valid then
      ["Output format: " ++ formatR.error_message.getD ""] else []) ++
    (if ¬verboseR.is_valid then
      ["Verbose mode: " ++ verboseR.error_message.getD ""] else [])
  (errors.isEmpty, errors)

/-! ## File manager (`app/utils/file_manager.py`) -/

/-- Filesystem effects available to `save_transcript`. -/
structure SaveFx where
  /-- whether `path.parent.mkdir(parents=True, exist_ok=True)` succeeds. -/
  mkdirOk : Bool
  /-- whether `open(path, 'w').write(...)` succeeds. -/
  writeOk : Bool
  deriving DecidableEq, Repr

/-- `FileManager._save_as_txt`: writes the text, `False` on OS error. -/
def save_as_txt (fx : SaveFx) : Bool := fx.writeOk

/-- `FileManager._save_as_json`: writes the JSON document, `False` on OS
error. -/
def save_as_json (fx : SaveFx) : Bool := fx.writeOk

/-- `FileManager.save_transcript` (file_manager.py lines 105–155).  NOTE the
guard: an empty transcript (or empty path) is rejected up front — `if not
text or not filepath: return False`. -/
def save_transcript (fx : SaveFx) (text filepath format : String) : Bool :=
  if text = "" ∨ filepath = "" then false
  else if ¬fx.mkdirOk then false
  else if pyLower format = "txt" then save_as_txt fx
  else if pyLower format = "json" then save_as_json fx
  else false

/-- `FileManager.ensure_extension` (file_manager.py lines 389–408). -/
def ensure_extension (filepath format : String) : String :=
  if pyLower format = "txt" ∧ pyLower (pathSuffix filepath) ≠ ".txt" then
    withSuffix filepath ".txt"
  else if pyLower format = "json" ∧ pyLower (pathSuffix filepath) ≠ ".json" then
    withSuffix filepath ".json"
  else filepath

/-! ## TranscriptionController (the Runner)

`start_transcription`, `cancel_transcription` and the worker body all take
`self._thread_lock` around their read-modify-write of `_is_running` /
`_current_request` / `_current_thread`, so every execution is a serialization
of these critical sections; the embedding models each critical section as one
atomic step on `ControllerState`. -/

/-- The runner state shared between caller thread and worker thread
(`_is_running`, `_current_request`, `_current_thread`). -/
structure ControllerState where
  is_running : Bool
  current_request : Option TranscriptionRequest
  /-- whether `_current_thread` references a worker. -/
  hasThread : Bool
  deriving DecidableEq, Repr

/-- The idle state a fresh controller starts in. -/
def idleState : ControllerState := ⟨false, none, false⟩

/-- Errors `start_transcription` raises. -/
inductive StartError where
  /-- `RuntimeError("Transcription operation is already running")`. -/
  | alreadyRunning
  /-- `ValueError("Validation failed:\n" + ...)`, carrying the aggregated
  per-category messages. -/
  | validationFailed (errors : List String)
  deriving DecidableEq, Repr

/-- `TranscriptionController.start_transcription` (controller lines 71–128),
one critical section: check `_is_running`, validate, correct the output
extension, set the running state and spawn the worker.  Returns the raised
error or the corrected request handed to the worker, together with the
post-state (unchanged on both error paths). -/
def start_transcription (st : ControllerState) (req : TranscriptionRequest)
    (vst : VideoStat) (ost : OutputStat) :
    Except StartError TranscriptionRequest × ControllerState :=
  if st.is_running then
    (.error .alreadyRunning, st)
  else
    let v := validate_transcription_request req.video_path req.output_path
      req.output_format req.verbose vst ost
    if ¬v.1 then
      (.error (.validationFailed v.2), st)
    else
      let corrected := { req with
        output_path := ensure_extension req.output_path req.output_format }
      (.ok corrected, ⟨true, some corrected, true⟩)

/-- `TranscriptionController._reset_state` (controller lines 387–392). -/
def reset_state (_st : ControllerState) : ControllerState := ⟨false, none, false⟩

/-- Environment of one worker-thread run. -/
structure ThreadEnv where
  /-- what `self.transcription_service.transcribe_video(...)` does: returns a
  result, or (`.error msg`) lets an exception escape — the outer `except` of
  the thread target converts it. -/
  transcribeOutcome : Except String TranscriptionResult
  /-- filesystem effects of the save step. -/
  save : SaveFx
  /-- whether a completion callback is registered. -/
  hasCompletionCallback : Bool

/-- Observables of one worker-thread run. -/
structure ThreadRun where
  /-- each completion-callback invocation, in order, paired with the
  controller state at the moment of the invocation. -/
  completions : List (TranscriptionResult × ControllerState)
  /-- the controller state after the `finally` block. -/
  finalState : ControllerState

/-- `TranscriptionController._transcription_thread_target` (controller lines
265–385): transcribe, persist on success (downgrading the result if the save
fails), invoke the completion callback, and only then — in the `finally`
block — reset the controller state.  Exceptions raised by the callback itself
are caught and logged, so they affect neither the invocation count nor the
reset. -/
def transcription_thread_target (st : ControllerState)
    (req : TranscriptionRequest) (env : ThreadEnv) : ThreadRun :=
  match env.transcribeOutcome with
  | .ok result =>
    let result2 :=
      if result.success then
        if save_transcript env.save result.transcript req.output_path
            req.output_format then
          { result with output_file_path := some req.output_path }
        else
          ⟨false, result.transcript,
            some ("Transcription completed but failed to save to: " ++ req.output_path),
            result.processing_time, none⟩
      else result
    ⟨if env.hasCompletionCallback then [(result2, st)] else [], reset_state st⟩
  | .error m =>
    let errorResult : TranscriptionResult := ⟨false, "", some m, 0, none⟩
    ⟨if env.hasCompletionCallback then [(errorResult, st)] else [], reset_state st⟩

/-- The dead inner function `audio_progress_callback(t)` of
`transcribe_video` step 3 (transcription_service.py lines 169–177): the
per-frame progress sink for `write_audiofile`.  Given the cancellation-event
observation and `audio.duration`, it maps the elapsed write time `t` to the
progress percentage it would report (interpolated over the 50–70 band) and
the continue/stop flag it would return.  The source defines it but never
passes it to `audio.write_audiofile`. -/
def audio_progress_callback (cancelled : Bool) (audioDuration t : ℚ) :
    Option ℚ × Bool :=
  if cancelled then (none, false)
  else if 0 < audioDuration then
    (some (50 + (t / audioDuration) * 20), true)
  else (none, true)

/-! ## Characterizations of the chunk loop -/

/-- The window the loop computes for chunk `i`:
`(start_time, end_time - start_time)` with `start_time = i * chunk_duration`
and `end_time = min((i + 1) * chunk_duration, source_duration)`. -/
def window (dur : ℚ) (i : ℕ) : ℚ × ℚ :=
  (chunk_duration * i, min (chunk_duration * (i + 1)) dur - chunk_duration * i)

/-- Whether the loop processes chunk `i` (its `start_time` is below the
total duration). -/
def isProcessed (dur : ℚ) (i : ℕ) : Bool := decide (chunk_duration * (i : ℚ) < dur)

/-- The chunk indices the loop actually processes: those `i` in
`range(num_chunks)` with `start_time < source_duration` (the loop `break`s at
the first index violating this, and start times increase, so break = filter). -/
def processedChunks (dur : ℚ) : List ℕ :=
  (List.range (numChunks dur)).filter (isProcessed dur)

/-- The recognition outcome of chunk `i`'s window. -/
def chunkOutcome (env : RecEnv) (dur : ℚ) (i : ℕ) : RecognitionOutcome :=
  env.recognizeSeg (window dur i).1 (window dur i).2

/-- The contribution of chunk `i` to `transcript_parts`. -/
def okPart (env : RecEnv) (dur : ℚ) (i : ℕ) : Option String :=
  match chunkOutcome env dur i with
  | .ok t => if pyStrip t ≠ "" then some (pyStrip t) else none
  | _ => none

/-- `chunk_progress = 95.0 + (i / num_chunks) * 5.0`. -/
def chunkProgress (n i : ℕ) : ℚ := 95 + ((i : ℚ) / (n : ℚ)) * 5

/-- The emissions of a loop outcome. -/
def LoopOut.emits : LoopOut → List ℚ
  | .done _ es _ => es
  | .err _ es _ => es

/-! ## Concrete fixtures for witnesses and counterexamples -/

/-- A readable 4 KiB `.mp4` source file. -/
def goodVideoStat : VideoStat := ⟨true, true, true, 4096⟩

/-- A writable, not-yet-existing output location. -/
def goodOutputStat : OutputStat := ⟨true, true, true, false, false, true⟩

/-- A well-formed request. -/
def reqA : TranscriptionRequest := ⟨"talk.mp4", "out.txt", "txt", some false, 0⟩

/-- The controller state while `reqA`'s run is in flight. -/
def runningStateA : ControllerState := ⟨true, some reqA, true⟩

/-- A successful engine result. -/
def succResultA : TranscriptionResult := ⟨true, "hello world", none, 3, none⟩

/-- A 90-second recognition environment: chunk 0 says "hello", chunk 1 is
silence, chunk 2 says "world". -/
def recEnvA : RecEnv :=
  ⟨some 90,
    fun off _ =>
      if off = 0 then .ok "hello" else if off = 30 then .unknownValue else .ok "world",
    .unknownValue⟩

/-- A clean full run over `recEnvA`. -/
def engineEnvA : EngineEnv := ⟨true, 10, .ok (), some (), .ok (), recEnvA, none, 3⟩

/-- A run whose audio is entirely silence (every chunk unrecognized). -/
def silentEnvA : EngineEnv :=
  ⟨true, 10, .ok (), some (), .ok (),
    ⟨some 60, fun _ _ => .unknownValue, .unknownValue⟩, none, 3⟩

/-- A run where `write_audiofile` raises (`disk full`). -/
def writeFailEnvA : EngineEnv :=
  ⟨true, 10, .ok (), some (), .error "disk full",
    ⟨some 60, fun _ _ => .unknownValue, .unknownValue⟩, none, 2⟩

/-- A run whose cancellation event is set while the audio file is being
written (first observed at check 3, the one after the write). -/
def cancelDuringWriteEnvA : EngineEnv :=
  ⟨true, 10, .ok (), some (), .ok (),
    ⟨some 60, fun _ _ => .ok "hi", .unknownValue⟩, some 3, 5⟩

/-- A run whose second chunk hits a `RequestError` from the service. -/
def reqErrEnvA : EngineEnv :=
  ⟨true, 10, .ok (), some (), .ok (),
    ⟨some 60,
      fun off _ => if off = 30 then .requestError "recognition request failed"
        else .ok "hello",
      .unknownValue⟩, none, 4⟩

/-- The worker environment of a successful run that saves `succResultA`. -/
def threadEnvA : ThreadEnv := ⟨.ok succResultA, ⟨true, true⟩, true⟩

lemma cancelAt_none (k : ℕ) : cancelAt none k = false := rfl

lemma chunk_duration_pos : (0 : ℚ) < chunk_duration := by norm_num [chunk_duration]

/-- Every index the loop processes is below `num_chunks`. -/
lemma processed_lt_numChunks {dur : ℚ} {i : ℕ}
    (h : chunk_duration * (i : ℚ) < dur) : i < numChunks dur := by
  have h30 : (0 : ℚ) < chunk_duration := chunk_duration_pos
  have hi : (i : ℚ) < dur / chunk_duration := by
    rw [lt_div_iff₀ h30]; linarith [h, mul_comm (chunk_duration) (i : ℚ)]
  have : (i : ℤ) ≤ ⌊dur / chunk_duration⌋ := Int.le_floor.mpr (by exact_mod_cast hi.le)
  have h2 : ((i : ℤ)).toNat ≤ (⌊dur / chunk_duration⌋).toNat := Int.toNat_le_toNat this
  simpa [numChunks] using Nat.lt_succ_of_le (by simpa using h2)

/-- The clean-loop characterization: with no cancellation observed and no
`RequestError` anywhere, the loop from index `i0` with `fuel` range elements
left completes, and its parts / emissions / record calls are exactly the
per-chunk data of the processed indices among `[i0, i0 + fuel)`. -/
lemma chunkLoop_clean (env : RecEnv) (cancel : ℕ → Bool) (dur : ℚ) (n : ℕ)
    (hc : ∀ k, cancel k = false)
    (hr : ∀ i m, chunkOutcome env dur i ≠ .requestError m) :
    ∀ fuel i0,
      chunkLoop env cancel dur n i0 fuel =
        .done
          (((List.range' i0 fuel).filter (isProcessed dur)).filterMap (okPart env dur))
          (((List.range' i0 fuel).filter (isProcessed dur)).map (chunkProgress n))
          (((List.range' i0 fuel).filter (isProcessed dur)).map (window dur)) := by
  intro fuel
  induction fuel with
  | zero => intro i0; simp [chunkLoop]
  | succ fuel ih =>
    intro i0
    rw [chunkLoop, hc]
    simp only [Bool.false_eq_true, if_false]
    by_cases hbreak : dur ≤ chunk_duration * (i0 : ℚ)
    · -- the break fires at `i0`, and no later index is processed either
      have hfilter :
          ((List.range' i0 (fuel + 1)).filter (isProcessed dur)) = [] := by
        apply List.filter_eq_nil_iff.mpr
        intro a ha
        have h1 : i0 ≤ a := (List.mem_range'_1.mp ha).1
        have : chunk_duration * (i0 : ℚ) ≤ chunk_duration * (a : ℚ) := by
          apply mul_le_mul_of_nonneg_left (by exact_mod_cast h1) chunk_duration_pos.le
        simpa [isProcessed] using not_lt.mpr (le_trans hbreak this)
      rw [if_pos hbreak, hfilter]; simp
    · rw [if_neg hbreak]
      have hcons : List.range' i0 (fuel + 1) = i0 :: List.range' (i0 + 1) fuel :=
        List.range'_succ i0 fuel 1
      have hproc : isProcessed dur i0 = true := by
        simpa [isProcessed] using not_le.mp hbreak
      rw [hcons, List.filter_cons, hproc]
      simp only [if_true]
      rcases ho : env.recognizeSeg (chunk_duration * (i0 : ℚ))
          (min (chunk_duration * ((i0 : ℚ) + 1)) dur - chunk_duration * (i0 : ℚ)) with t | _ | m
      · rw [ih (i0 + 1)]
        have hok : okPart env dur i0 =
            (if pyStrip t ≠ "" then some (pyStrip t) else none) := by
          simp only [okPart, chunkOutcome, window]; rw [ho]
        by_cases hs : pyStrip t = "" <;>
          simp [LoopOut.prepend, List.filterMap_cons, hok, hs, chunkProgress, window]
      · rw [ih (i0 + 1)]
        have hok : okPart env dur i0 = none := by
          simp only [okPart, chunkOutcome, window]; rw [ho]
        simp [LoopOut.prepend, List.filterMap_cons, hok, chunkProgress, window]
      · exact absurd (by simp only [chunkOutcome, window]; exact ho) (hr i0 m)

/-- The clean-run characterization of `_transcribe_audio_file_optimized`
for a known duration: transcript, emissions and record windows are the
per-chunk data of the processed indices. -/
lemma rec_clean (env : RecEnv) (cancel : ℕ → Bool) (dur : ℚ)
    (hdur : env.duration = some dur)
    (hc : ∀ k, cancel k = false)
    (hr : ∀ i m, chunkOutcome env dur i ≠ .requestError m) :
    transcribe_audio_file_optimized env true cancel =
      ⟨.ok (String.intercalate " "
            ((processedChunks dur).filterMap (okPart env dur))),
        [82, 85, 90] ++ (processedChunks dur).map (chunkProgress (numChunks dur)),
        (processedChunks dur).map (window dur),
        false⟩ := by
  rw [transcribe_audio_file_optimized]
  simp only [not_true, if_false, hc 0, Bool.false_eq_true, if_false, hdur]
  rw [chunkLoop_clean env cancel dur (numChunks dur) hc hr (numChunks dur) 0]
  simp [processedChunks, List.range_eq_range']

/-- A `RequestError` at the first processed chunk that raises one aborts the
loop with the wrapped service message (the parts accumulated so far are
discarded by the exception). -/
lemma chunkLoop_requestError (env : RecEnv) (cancel : ℕ → Bool) (dur : ℚ) (n : ℕ)
    (hc : ∀ k, cancel k = false)
    (j : ℕ) (m : String)
    (hj : chunk_duration * (j : ℚ) < dur)
    (hfirst : ∀ i, i < j → ∀ m', chunkOutcome env dur i ≠ .requestError m')
    (hreq : chunkOutcome env dur j = .requestError m) :
    ∀ fuel i0, i0 ≤ j → j < i0 + fuel →
      ∃ es cs, chunkLoop env cancel dur n i0 fuel =
        .err ("Could not request results from Google Speech Recognition service: " ++ m)
          es cs := by
  intro fuel
  induction fuel with
  | zero => intro i0 h1 h2; omega
  | succ fuel ih =>
    intro i0 h1 h2
    rw [chunkLoop, hc]
    simp only [Bool.false_eq_true, if_false]
    have hni0 : chunk_duration * (i0 : ℚ) < dur := by
      have : (i0 : ℚ) ≤ (j : ℚ) := by exact_mod_cast h1
      have := mul_le_mul_of_nonneg_left this chunk_duration_pos.le
      linarith
    rw [if_neg (not_le.mpr hni0)]
    rcases eq_or_lt_of_le h1 with rfl | hlt
    · -- this is the failing chunk
      have : env.recognizeSeg (chunk_duration * (i0 : ℚ))
          (min (chunk_duration * ((i0 : ℚ) + 1)) dur - chunk_duration * (i0 : ℚ)) =
          .requestError m := by
        simpa only [chunkOutcome, window] using hreq
      rw [this]
      exact ⟨_, _, rfl⟩
    · -- an earlier chunk: it cannot raise `RequestError`, so the loop advances
      rcases ho : env.recognizeSeg (chunk_duration * (i0 : ℚ))
          (min (chunk_duration * ((i0 : ℚ) + 1)) dur - chunk_duration * (i0 : ℚ))
        with t | _ | m'
      · obtain ⟨es, cs, hrec⟩ := ih (i0 + 1) hlt (by omega)
        rw [hrec]
        exact ⟨_, _, rfl⟩
      · obtain ⟨es, cs, hrec⟩ := ih (i0 + 1) hlt (by omega)
        rw [hrec]
        exact ⟨_, _, rfl⟩
      · exact absurd (by simp only [chunkOutcome, window]; exact ho) (hfirst i0 hlt m')

lemma sorted_append_of {l₁ l₂ : List ℚ} (h₁ : l₁.Sorted (· ≤ ·))
    (h₂ : l₂.Sorted (· ≤ ·)) (h : ∀ a ∈ l₁, ∀ b ∈ l₂, a ≤ b) :
    (l₁ ++ l₂).Sorted (· ≤ ·) :=
  List.pairwise_append.mpr ⟨h₁, h₂, h⟩

lemma chunkProgress_mono {n : ℕ} (hn : 0 < n) {i j : ℕ} (h : i ≤ j) :
    chunkProgress n i ≤ chunkProgress n j := by
  have hq : (0 : ℚ) < (n : ℚ) := by exact_mod_cast hn
  have : (i : ℚ) / n ≤ (j : ℚ) / n :=
    div_le_div_of_nonneg_right (by exact_mod_cast h) hq.le
  simp only [chunkProgress]
  nlinarith

lemma chunkProgress_lt_100 {n i : ℕ} (hn : 0 < n) (h : i < n) :
    chunkProgress n i < 100 := by
  have hq : (0 : ℚ) < (n : ℚ) := by exact_mod_cast hn
  have : (i : ℚ) / n < 1 := (div_lt_one hq).mpr (by exact_mod_cast h)
  simp only [chunkProgress]
  nlinarith

lemma chunkProgress_ge_95 (n i : ℕ) : 95 ≤ chunkProgress n i := by
  simp only [chunkProgress]
  have h1 : (0 : ℚ) ≤ (i : ℚ) := by positivity
  rcases Nat.eq_zero_or_pos n with rfl | hn
  · simp
  · have hq : (0 : ℚ) < (n : ℚ) := by exact_mod_cast hn
    have : (0 : ℚ) ≤ (i : ℚ) / n := by positivity
    nlinarith

/-- The chunk-progress emissions of the loop (whatever its outcome) are
sorted, and each lies in `[chunkProgress n i0, 100)`. -/
lemma chunkLoop_emits_sorted (env : RecEnv) (cancel : ℕ → Bool) (dur : ℚ) (n : ℕ)
    (hn : 0 < n) (hb : ∀ i : ℕ, chunk_duration * (i : ℚ) < dur → i < n) :
    ∀ fuel i0,
      ((chunkLoop env cancel dur n i0 fuel).emits).Sorted (· ≤ ·) ∧
      ∀ q ∈ (chunkLoop env cancel dur n i0 fuel).emits,
        chunkProgress n i0 ≤ q ∧ q < 100 := by
  intro fuel
  induction fuel with
  | zero => intro i0; simp [chunkLoop, LoopOut.emits]
  | succ fuel ih =>
    intro i0
    rw [chunkLoop]
    by_cases hcan : cancel (1 + i0)
    · simp [hcan, LoopOut.emits]
    · simp only [hcan, Bool.false_eq_true, if_false]
      by_cases hbreak : dur ≤ chunk_duration * (i0 : ℚ)
      · simp [hbreak, LoopOut.emits]
      · rw [if_neg hbreak]
        have hi0n : i0 < n := hb i0 (not_le.mp hbreak)
        have hd100 : chunkProgress n i0 < 100 := chunkProgress_lt_100 hn hi0n
        have hq : (95 : ℚ) + ((i0 : ℚ) / (n : ℚ)) * 5 = chunkProgress n i0 := rfl
        obtain ⟨ihs, ihb⟩ := ih (i0 + 1)
        have hmono : chunkProgress n i0 ≤ chunkProgress n (i0 + 1) :=
          chunkProgress_mono hn (Nat.le_succ i0)
        have hcons : ∀ es, es = (chunkLoop env cancel dur n (i0 + 1) fuel).emits →
            ((chunkProgress n i0 :: es).Sorted (· ≤ ·) ∧
             ∀ q ∈ chunkProgress n i0 :: es, chunkProgress n i0 ≤ q ∧ q < 100) := by
          rintro es rfl
          refine ⟨List.sorted_cons.mpr ⟨fun b hb' => le_trans hmono (ihb b hb').1, ihs⟩, ?_⟩
          intro q hq'
          rcases List.mem_cons.mp hq' with rfl | hq''
          · exact ⟨le_refl _, hd100⟩
          · exact ⟨le_trans hmono (ihb q hq'').1, (ihb q hq'').2⟩
        rcases ho : env.recognizeSeg (chunk_duration * (i0 : ℚ))
            (min (chunk_duration * ((i0 : ℚ) + 1)) dur - chunk_duration * (i0 : ℚ))
          with t | _ | m
        · cases hloop : chunkLoop env cancel dur n (i0 + 1) fuel with
          | done parts es cs =>
            have := hcons es (by rw [hloop]; rfl)
            simpa [LoopOut.prepend, LoopOut.emits, hq] using this
          | err msg es cs =>
            have := hcons es (by rw [hloop]; rfl)
            simpa [LoopOut.prepend, LoopOut.emits, hq] using this
        · cases hloop : chunkLoop env cancel dur n (i0 + 1) fuel with
          | done parts es cs =>
            have := hcons es (by rw [hloop]; rfl)
            simpa [LoopOut.prepend, LoopOut.emits, hq] using this
          | err msg es cs =>
            have := hcons es (by rw [hloop]; rfl)
            simpa [LoopOut.prepend, LoopOut.emits, hq] using this
        · refine ⟨by simp [LoopOut.emits], ?_⟩
          intro q hq'
          simp only [LoopOut.emits, List.mem_singleton] at hq'
          subst hq'
          exact ⟨le_of_eq hq.symm, hd100⟩

/-- All emissions of `_transcribe_audio_file_optimized` are sorted and lie in
`[82, 100)`. -/
lemma rec_emitted_sorted (env : RecEnv) (tempExists : Bool) (cancel : ℕ → Bool) :
    ((transcribe_audio_file_optimized env tempExists cancel).emitted).Sorted (· ≤ ·) ∧
    ∀ q ∈ (transcribe_audio_file_optimized env tempExists cancel).emitted,
      82 ≤ q ∧ q < 100 := by
  rw [transcribe_audio_file_optimized]
  by_cases ht : tempExists
  · rw [if_neg (by simpa using ht)]
    by_cases hcan : cancel 0
    · rw [if_pos hcan]
      refine ⟨by simp, ?_⟩
      intro q hq
      simp only [List.mem_singleton] at hq
      subst hq; norm_num
    · rw [if_neg hcan]
      cases hdur : env.duration with
      | none =>
        dsimp only
        cases env.recognizeWhole <;>
          refine ⟨by simp [List.sorted_cons]; norm_num, ?_⟩ <;>
          · intro q hq
            simp only [List.mem_cons, List.not_mem_nil, or_false] at hq
            rcases hq with rfl | rfl | rfl <;> norm_num
      | some dur =>
        dsimp only
        have hn : 0 < numChunks dur := Nat.succ_pos _
        have hb : ∀ i : ℕ, chunk_duration * (i : ℚ) < dur → i < numChunks dur :=
          fun i h => processed_lt_numChunks h
        obtain ⟨hs, hbnd⟩ :=
          chunkLoop_emits_sorted env cancel dur (numChunks dur) hn hb (numChunks dur) 0
        have h95 : ∀ q ∈ (chunkLoop env cancel dur (numChunks dur) 0
            (numChunks dur)).emits, 95 ≤ q ∧ q < 100 := by
          intro q hq
          obtain ⟨h1, h2⟩ := hbnd q hq
          exact ⟨le_trans (chunkProgress_ge_95 _ 0) h1, h2⟩
        rcases hloop : chunkLoop env cancel dur (numChunks dur) 0 (numChunks dur)
          with ⟨parts, es, cs⟩ | ⟨msg, es, cs⟩ <;>
        · rw [hloop] at hs h95
          simp only [LoopOut.emits] at hs h95
          dsimp only
          constructor
          · refine sorted_append_of (by simp [List.sorted_cons]; norm_num) hs ?_
            intro a ha b hb'
            have h95b := (h95 b hb').1
            simp only [List.mem_cons, List.not_mem_nil, or_false] at ha
            rcases ha with rfl | rfl | rfl <;> linarith
          · intro q hq
            simp only [List.mem_append, List.mem_cons,
              List.not_mem_nil, or_false] at hq
            rcases hq with (rfl | rfl | rfl) | hq'
            · norm_num
            · norm_num
            · norm_num
            · obtain ⟨h1, h2⟩ := h95 q hq'; exact ⟨by linarith, h2⟩
  · rw [if_pos (by simpa using ht)]
    refine ⟨by simp, ?_⟩
    intro q hq
    simp only [List.mem_singleton] at hq
    subst hq; norm_num

/-- The full emission sequence of any `transcribe_video` run is sorted
(non-decreasing), whatever the environment does. -/
lemma engine_emitted_sorted (p : String) (env : EngineEnv) :
    ((transcribe_video p env).emitted).Sorted (· ≤ ·) := by
  obtain ⟨hrs, hrb⟩ := rec_emitted_sorted env.recog true
    (fun k => cancelAt env.cancelFrom (4 + k))
  rw [transcribe_video]
  by_cases hf : env.fileExists
  · rw [if_neg (by simpa using hf)]
    by_cases hc0 : cancelAt env.cancelFrom 0
    · rw [if_pos hc0]; simp
    · rw [if_neg hc0]
      cases env.loadResult with
      | error m => simp
      | ok _ =>
        dsimp only
        by_cases hc1 : cancelAt env.cancelFrom 1
        · rw [if_pos hc1]; simp [List.sorted_cons]; norm_num
        · rw [if_neg hc1]
          cases env.audioTrack with
          | none => dsimp only; simp [List.sorted_cons]; norm_num
          | some _ =>
            dsimp only
            by_cases hc2 : cancelAt env.cancelFrom 2
            · rw [if_pos hc2]; simp [List.sorted_cons]; norm_num
            · rw [if_neg hc2]
              cases env.writeResult with
              | error m => dsimp only; simp [List.sorted_cons]; norm_num
              | ok _ =>
                dsimp only
                by_cases hc3 : cancelAt env.cancelFrom 3
                · rw [if_pos hc3]; simp [List.sorted_cons]; norm_num
                · rw [if_neg hc3]
                  cases hres : (transcribe_audio_file_optimized env.recog true
                      (fun k => cancelAt env.cancelFrom (4 + k))).result with
                  | error m =>
                    dsimp only
                    refine sorted_append_of (by simp [List.sorted_cons]; norm_num) hrs ?_
                    intro a ha b hb
                    have := (hrb b hb).1
                    simp only [List.mem_cons, List.not_mem_nil, or_false] at ha
                    rcases ha with rfl | rfl | rfl | rfl <;> linarith
                  | ok t =>
                    dsimp only
                    refine sorted_append_of (sorted_append_of
                      (by simp [List.sorted_cons]; norm_num) hrs ?_)
                      (by simp) ?_
                    · intro a ha b hb
                      have := (hrb b hb).1
                      simp only [List.mem_cons, List.not_mem_nil, or_false] at ha
                      rcases ha with rfl | rfl | rfl | rfl <;> linarith
                    · intro a ha b hb
                      simp only [List.mem_singleton] at hb
                      subst hb
                      simp only [List.mem_append, List.mem_cons,
                        List.not_mem_nil, or_false] at ha
                      rcases ha with (rfl | rfl | rfl | rfl) | ha'
                      · norm_num
                      · norm_num
                      · norm_num
                      · norm_num
                      · exact (hrb a ha').2.le
  · rw [if_pos (by simpa using hf)]; simp

/-! ## Throttle properties -/

/-- The delivered percentages are a subsequence of the offered ones. -/
lemma throttleRun_sublist (xs : List (ℚ × ℚ)) :
    ∀ last, List.Sublist (throttleRun last xs) (xs.map Prod.fst) := by
  induction xs with
  | nil => intro last; simp [throttleRun]
  | cons x rest ih =>
    intro last
    rw [throttleRun]
    by_cases h : progress_update_interval ≤ x.2 - last ∨ x.1 ∈ milestones
    · rw [if_pos h]
      exact List.Sublist.cons₂ _ (ih x.2)
    · rw [if_neg h]
      exact List.Sublist.cons _ (ih last)

lemma withTimes_map_fst (ps : List ℚ) (ts : ℕ → ℚ) :
    (withTimes ps ts).map Prod.fst = ps := by
  simp only [withTimes, List.map_map]
  have : (Prod.fst ∘ fun ip : ℕ × ℚ => (ip.2, ts ip.1)) = Prod.snd := rfl
  rw [this, List.enum_map_snd]

/-- The recognition path of the engine: when the file exists, loading,
extraction and the audio write all succeed, and the run is never cancelled,
`transcribe_video` delegates to the recognizer and wraps its outcome. -/
lemma transcribe_video_recognition (p : String) (env : EngineEnv)
    (hf : env.fileExists = true) (hl : env.loadResult = .ok ())
    (ha : env.audioTrack = some ()) (hw : env.writeResult = .ok ())
    (hcan : env.cancelFrom = none) :
    transcribe_video p env =
      match (transcribe_audio_file_optimized env.recog true (fun _ => false)).result with
      | .error m =>
        ⟨failedResult ("Speech recognition failed: " ++ m) env.elapsed,
          [10, 30, 50, 80] ++
            (transcribe_audio_file_optimized env.recog true (fun _ => false)).emitted,
          true, false, true⟩
      | .ok t =>
        ⟨⟨true, t, none, env.elapsed, none⟩,
          [10, 30, 50, 80] ++
            (transcribe_audio_file_optimized env.recog true (fun _ => false)).emitted ++
            [100],
          true, false, true⟩ := by
  rw [transcribe_video, if_neg (by simp [hf]), hcan, hl, ha, hw]
  simp only [cancelAt_none, Bool.false_eq_true, if_false]

/-- If the chunk loop aborts with an exception, the recognizer raises it. -/
lemma rec_err (env : RecEnv) (cancel : ℕ → Bool) (dur : ℚ)
    (hdur : env.duration = some dur) (hc0 : cancel 0 = false)
    {msg : String} {es : List ℚ} {cs : List (ℚ × ℚ)}
    (hloop : chunkLoop env cancel dur (numChunks dur) 0 (numChunks dur) =
      .err msg es cs) :
    (transcribe_audio_file_optimized env true cancel).result = .error msg := by
  rw [transcribe_audio_file_optimized]
  simp only [not_true, if_false, hc0, Bool.false_eq_true, hdur]
  rw [hloop]

/-! ## Claim theorems -/

/-- **C1**: for every run of the chunked recognizer with known total duration
(and no service failure or cancellation, the regime the claim describes), the
final transcript equals the texts of the successfully recognized chunks
joined with a single space, in chunk order; a chunk that raises
`UnrecognizedError` or whose text is empty contributes zero characters and no
separator, and the run still succeeds.  `hclean` reflects the claim's premise
that chunk texts carry no surrounding whitespace (the code strips each text,
so texts are taken as stripped). -/
theorem C1_transcript_space_join (p : String) (env : EngineEnv) (dur : ℚ)
    (hf : env.fileExists = true) (hl : env.loadResult = .ok ())
    (ha : env.audioTrack = some ()) (hw : env.writeResult = .ok ())
    (hcan : env.cancelFrom = none)
    (hdur : env.recog.duration = some dur)
    (hclean : ∀ i t, chunkOutcome env.recog dur i = .ok t → pyStrip t = t)
    (hnoreq : ∀ i m, chunkOutcome env.recog dur i ≠ .requestError m) :
    (transcribe_video p env).result.success = true ∧
    (transcribe_video p env).result.transcript =
      String.intercalate " "
        ((processedChunks dur).filterMap fun i =>
          match chunkOutcome env.recog dur i with
          | .ok t => if t = "" then none else some t
          | _ => none) := by
  rw [transcribe_video_recognition p env hf hl ha hw hcan,
    rec_clean env.recog _ dur hdur (fun _ => rfl) hnoreq]
  refine ⟨rfl, ?_⟩
  show String.intercalate " " _ = _
  congr 1
  apply List.filterMap_congr
  intro i _
  rcases ho : chunkOutcome env.recog dur i with t | _ | m
  · have hct := hclean i t ho
    simp only [okPart, ho, hct]
    by_cases ht : t = "" <;> simp [ht]
  · simp [okPart, ho]
  · simp [okPart, ho]

/-- Witness for C1 at a concrete 90-second run: chunk 0 "hello", chunk 1
silent, chunk 2 "world". -/
theorem C1_witness :
    (transcribe_video "talk.mp4" engineEnvA).result.success = true ∧
    (transcribe_video "talk.mp4" engineEnvA).result.transcript =
      String.intercalate " "
        ((processedChunks 90).filterMap fun i =>
          match chunkOutcome engineEnvA.recog 90 i with
          | .ok t => if t = "" then none else some t
          | _ => none) :=
  C1_transcript_space_join "talk.mp4" engineEnvA 90 rfl rfl rfl rfl rfl rfl
    (by
      intro i t h
      simp only [engineEnvA, recEnvA, chunkOutcome, window] at h
      split_ifs at h with h1 h2 <;> cases h <;> decide)
    (by
      intro i m h
      simp only [engineEnvA, recEnvA, chunkOutcome, window] at h
      split_ifs at h)

/-- **C2**: error-propagation policy.  (i) Per-chunk `UnrecognizedError` is
swallowed inside the recognizer and never surfaces past it: with a known
duration, no cancellation and no `RequestError`, the recognizer returns
normally no matter how many chunks are unrecognized.  (ii) A `ServiceError`
(`sr.RequestError`) raised by any recognition call propagates immediately,
aborts the run, and is converted by the engine into a result with
`success=false` and the stage-specific message — never a raw exception (the
embedded `transcribe_video` is a total function into `EngineRun`). -/
theorem C2_error_propagation :
    (∀ (env : RecEnv) (cancel : ℕ → Bool) (dur : ℚ),
      env.duration = some dur → (∀ k, cancel k = false) →
      (∀ i m, chunkOutcome env dur i ≠ .requestError m) →
      ∃ t, (transcribe_audio_file_optimized env true cancel).result = .ok t) ∧
    (∀ (p : String) (env : EngineEnv) (dur : ℚ) (j : ℕ) (m : String),
      env.fileExists = true → env.loadResult = .ok () →
      env.audioTrack = some () → env.writeResult = .ok () →
      env.cancelFrom = none → env.recog.duration = some dur →
      chunk_duration * (j : ℚ) < dur →
      (∀ i, i < j → ∀ mi, chunkOutcome env.recog dur i ≠ .requestError mi) →
      chunkOutcome env.recog dur j = .requestError m →
      (transcribe_video p env).result =
        failedResult
          ("Speech recognition failed: " ++
            ("Could not request results from Google Speech Recognition service: " ++ m))
          env.elapsed) := by
  constructor
  · intro env cancel dur hdur hc hr
    rw [rec_clean env cancel dur hdur hc hr]
    exact ⟨_, rfl⟩
  · intro p env dur j m hf hl ha hw hcan hdur hj hfirst hreq
    rw [transcribe_video_recognition p env hf hl ha hw hcan]
    obtain ⟨es, cs, hloop⟩ :=
      chunkLoop_requestError env.recog (fun _ => false) dur (numChunks dur)
        (fun _ => rfl) j m hj hfirst hreq (numChunks dur) 0 (Nat.zero_le j)
        (by simpa using processed_lt_numChunks hj)
    rw [rec_err env.recog (fun _ => false) dur hdur rfl hloop]

/-- Witness for C2: an all-silent 60-second recognizer run succeeds with some
transcript, and a run whose second chunk hits a `RequestError` fails with the
wrapped service message. -/
theorem C2_witness :
    (∃ t, (transcribe_audio_file_optimized
        ⟨some 60, fun _ _ => .unknownValue, .unknownValue⟩ true
        (fun _ => false)).result = .ok t) ∧
    (transcribe_video "talk.mp4" reqErrEnvA).result =
      failedResult
        ("Speech recognition failed: " ++
          ("Could not request results from Google Speech Recognition service: " ++
            "recognition request failed"))
        reqErrEnvA.elapsed :=
  ⟨C2_error_propagation.1 ⟨some 60, fun _ _ => .unknownValue, .unknownValue⟩
      (fun _ => false) 60 rfl (fun _ => rfl)
      (fun i m h => by simp only [chunkOutcome] at h; exact RecognitionOutcome.noConfusion h),
    C2_error_propagation.2 "talk.mp4" reqErrEnvA 60 1 "recognition request failed"
      rfl rfl rfl rfl rfl rfl
      (by norm_num [chunk_duration])
      (by
        intro i hi mi h
        interval_cases i
        simp only [reqErrEnvA, chunkOutcome, window] at h
        norm_num [chunk_duration] at h
        exact RecognitionOutcome.noConfusion h)
      (by
        simp only [reqErrEnvA, chunkOutcome, window]
        norm_num [chunk_duration])⟩

/-- **C3**: single-flight guard.  (i) A `start` issued while a run is active
returns `AlreadyRunningError` and leaves the controller state — running flag,
current request, thread handle — exactly as it was.  (ii) Both the check of
the running flag and its setting happen inside the single critical section
the embedding makes atomic, so in any serialization of two `start` calls
(which the shared `_thread_lock` enforces), a call that observes the state
left by a successful one fails with `AlreadyRunningError`: no two starts can
both spawn a worker. -/
theorem C3_single_flight :
    (∀ (st : ControllerState) (req : TranscriptionRequest)
       (vst : VideoStat) (ost : OutputStat),
      st.is_running = true →
      start_transcription st req vst ost = (.error .alreadyRunning, st)) ∧
    (∀ (st st₁ : ControllerState) (req₁ req₂ r₁ : TranscriptionRequest)
       (vst₁ vst₂ : VideoStat) (ost₁ ost₂ : OutputStat),
      start_transcription st req₁ vst₁ ost₁ = (.ok r₁, st₁) →
      (start_transcription st₁ req₂ vst₂ ost₂).1 = .error .alreadyRunning) := by
  constructor
  · intro st req vst ost h
    rw [start_transcription, if_pos h]
  · intro st st₁ req₁ req₂ r₁ vst₁ vst₂ ost₁ ost₂ h
    rw [start_transcription] at h
    by_cases hr : st.is_running
    · rw [if_pos hr] at h
      exact absurd (congrArg Prod.fst h) (by simp)
    · rw [if_neg hr] at h
      dsimp only at h
      split_ifs at h with hv
      · have h2 := congrArg Prod.snd h
        simp only at h2
        rw [start_transcription, ← h2]
        simp
      · exact absurd (congrArg Prod.fst h) (by simp)

/-- Witness for C3: starting while `reqA`'s run is active fails and leaves
the state untouched; a second start serialized after a successful one fails. -/
theorem C3_witness :
    start_transcription runningStateA reqA goodVideoStat goodOutputStat =
      (.error .alreadyRunning, runningStateA) ∧
    (start_transcription ⟨true, some reqA, true⟩ reqA goodVideoStat
      goodOutputStat).1 = .error .alreadyRunning :=
  ⟨C3_single_flight.1 runningStateA reqA goodVideoStat goodOutputStat rfl,
    C3_single_flight.2 idleState ⟨true, some reqA, true⟩ reqA reqA reqA
      goodVideoStat goodVideoStat goodOutputStat goodOutputStat rfl⟩

/-- **C4** (evidence for the code bug): on the `write_audiofile`-failure exit
path of `transcribe_video` the temporary WAV has been created but is NOT
deleted before the function returns — this path only releases the video and
audio handles, skipping `_cleanup_temp_files`, so the run leaves the artifact
behind, contradicting the claimed every-exit-path deletion invariant. -/
theorem C4_temp_artifact_leak :
    (transcribe_video "talk.mp4" writeFailEnvA).tempCreated = true ∧
    (transcribe_video "talk.mp4" writeFailEnvA).tempLeft = true ∧
    (transcribe_video "talk.mp4" writeFailEnvA).result.success = false ∧
    (transcribe_video "talk.mp4" writeFailEnvA).result.error_message =
      some "Failed to write audio file: disk full" :=
  ⟨rfl, rfl, rfl, rfl⟩

/-- **C5**: chunk windowing.  (i) With a known duration (and no cancellation
or service failure), the audio segments handed to recognition are exactly the
windows of the processed chunk indices, independently and in order;
(ii) window `i` spans `[chunk_duration·i, min(chunk_duration·(i+1), dur))`;
(iii) consecutive windows abut; (iv) the windows cover the entire duration;
(v) with an unknown duration the recognizer falls back to a single
whole-file call and records no windows. -/
theorem C5_chunk_windowing :
    (∀ (env : RecEnv) (cancel : ℕ → Bool) (dur : ℚ),
      env.duration = some dur → (∀ k, cancel k = false) →
      (∀ i m, chunkOutcome env dur i ≠ .requestError m) →
      (transcribe_audio_file_optimized env true cancel).calls =
        (processedChunks dur).map (window dur) ∧
      (transcribe_audio_file_optimized env true cancel).wholeFile = false) ∧
    (∀ (dur : ℚ) (i : ℕ),
      (window dur i).1 = chunk_duration * (i : ℚ) ∧
      (window dur i).1 + (window dur i).2 =
        min (chunk_duration * ((i : ℚ) + 1)) dur) ∧
    (∀ (dur : ℚ) (i : ℕ), (i + 1) ∈ processedChunks dur →
      (window dur (i + 1)).1 = (window dur i).1 + (window dur i).2) ∧
    (∀ dur x : ℚ, 0 ≤ x → x < dur →
      ∃ i ∈ processedChunks dur,
        (window dur i).1 ≤ x ∧ x < (window dur i).1 + (window dur i).2) ∧
    (∀ (env : RecEnv) (cancel : ℕ → Bool),
      env.duration = none → cancel 0 = false →
      (transcribe_audio_file_optimized env true cancel).wholeFile = true ∧
      (transcribe_audio_file_optimized env true cancel).calls = []) := by
  refine ⟨?_, ?_, ?_, ?_, ?_⟩
  · intro env cancel dur hdur hc hr
    rw [rec_clean env cancel dur hdur hc hr]
    exact ⟨rfl, rfl⟩
  · intro dur i
    constructor
    · rfl
    · show chunk_duration * (i : ℚ) +
        (min (chunk_duration * ((i : ℚ) + 1)) dur - chunk_duration * (i : ℚ)) = _
      ring
  · intro dur i hmem
    have hproc : isProcessed dur (i + 1) = true := (List.mem_filter.mp hmem).2
    have hlt : chunk_duration * (((i : ℚ)) + 1) < dur := by
      have := of_decide_eq_true hproc
      push_cast at this
      linarith
    simp only [window]
    push_cast
    rw [min_eq_left hlt.le]
    ring
  · intro dur x hx0 hxd
    set i : ℕ := (⌊x / chunk_duration⌋).toNat with hi
    have hfl0 : 0 ≤ ⌊x / chunk_duration⌋ :=
      Int.floor_nonneg.mpr (div_nonneg hx0 chunk_duration_pos.le)
    have hicast : ((i : ℤ) : ℚ) = ((⌊x / chunk_duration⌋ : ℤ) : ℚ) := by
      rw [hi, Int.toNat_of_nonneg hfl0]
    have hiq : (i : ℚ) = ((⌊x / chunk_duration⌋ : ℤ) : ℚ) := by
      exact_mod_cast hicast
    have h1 : chunk_duration * (i : ℚ) ≤ x := by
      have := Int.floor_le (x / chunk_duration)
      rw [← hiq] at this
      calc chunk_duration * (i : ℚ) ≤ chunk_duration * (x / chunk_duration) :=
            mul_le_mul_of_nonneg_left this chunk_duration_pos.le
        _ = x := by
            rw [mul_comm]
            exact div_mul_cancel₀ x (ne_of_gt chunk_duration_pos)
    have h2 : x < chunk_duration * ((i : ℚ) + 1) := by
      have := Int.lt_floor_add_one (x / chunk_duration)
      rw [← hiq] at this
      have h3 : x / chunk_duration < (i : ℚ) + 1 := this
      calc x = chunk_duration * (x / chunk_duration) := by
            rw [mul_comm]
            exact (div_mul_cancel₀ x (ne_of_gt chunk_duration_pos)).symm
        _ < chunk_duration * ((i : ℚ) + 1) :=
            (mul_lt_mul_left chunk_duration_pos).mpr h3
    have hstart : chunk_duration * (i : ℚ) < dur := lt_of_le_of_lt h1 hxd
    refine ⟨i, ?_, h1, ?_⟩
    · exact List.mem_filter.mpr
        ⟨List.mem_range.mpr (processed_lt_numChunks hstart),
          by simp [isProcessed, hstart]⟩
    · show x < chunk_duration * (i : ℚ) +
        (min (chunk_duration * ((i : ℚ) + 1)) dur - chunk_duration * (i : ℚ))
      have : x < min (chunk_duration * ((i : ℚ) + 1)) dur := lt_min h2 hxd
      linarith
  · intro env cancel hdur hc0
    rw [transcribe_audio_file_optimized]
    simp only [not_true, if_false, hc0, Bool.false_eq_true, hdur]
    cases env.recognizeWhole <;> exact ⟨rfl, rfl⟩

/-- Witness for C5 at the 90-second fixture `recEnvA` and for the fallback at
an unknown-duration environment. -/
theorem C5_witness :
    ((transcribe_audio_file_optimized recEnvA true (fun _ => false)).calls =
        (processedChunks 90).map (window 90) ∧
      (transcribe_audio_file_optimized recEnvA true (fun _ => false)).wholeFile =
        false) ∧
    (∃ i ∈ processedChunks 90,
      (window 90 i).1 ≤ 45 ∧ (45 : ℚ) < (window 90 i).1 + (window 90 i).2) ∧
    ((transcribe_audio_file_optimized ⟨none, fun _ _ => .ok "x", .ok "whole"⟩
        true (fun _ => false)).wholeFile = true ∧
      (transcribe_audio_file_optimized ⟨none, fun _ _ => .ok "x", .ok "whole"⟩
        true (fun _ => false)).calls = []) :=
  ⟨C5_chunk_windowing.1 recEnvA (fun _ => false) 90 rfl (fun _ => rfl)
      (by
        intro i m h
        simp only [recEnvA, chunkOutcome, window] at h
        split_ifs at h),
    C5_chunk_windowing.2.2.2.1 90 45 (by norm_num) (by norm_num),
    C5_chunk_windowing.2.2.2.2 ⟨none, fun _ _ => .ok "x", .ok "whole"⟩
      (fun _ => false) rfl rfl⟩

/-- **C6**: progress monotonicity.  For every run — every environment, every
wall-clock schedule of the emission times, every initial throttle state — the
sequence of percentages the throttle actually delivers to the progress
callback is non-decreasing, regardless of which updates the throttle
suppresses and in which stage the run ends. -/
theorem C6_progress_monotone (p : String) (env : EngineEnv) (last0 : ℚ)
    (ts : ℕ → ℚ) :
    (throttleRun last0
      (withTimes (transcribe_video p env).emitted ts)).Sorted (· ≤ ·) := by
  have h1 := throttleRun_sublist
    (withTimes (transcribe_video p env).emitted ts) last0
  rw [withTimes_map_fst] at h1
  exact List.Pairwise.sublist h1 (engine_emitted_sorted p env)

/-- Witness for C6 at the concrete clean run, emissions spaced 1/100 s. -/
theorem C6_witness :
    (throttleRun 0
      (withTimes (transcribe_video "talk.mp4" engineEnvA).emitted
        (fun k => (k : ℚ) / 100))).Sorted (· ≤ ·) :=
  C6_progress_monotone "talk.mp4" engineEnvA 0 (fun k => (k : ℚ) / 100)

/-- **C7** (amended): for every accepted start, the completion callback is
invoked exactly once, on every worker path (success, save failure,
transcription failure, or an exception escaping `transcribe_video`), and the
controller state at the moment of the invocation is still the pre-reset
state; the reset to idle happens only afterwards, in the `finally` block.
Consequently a `start` issued from within the completion callback receives
`AlreadyRunningError`; only after the worker finishes is `is_running` false
again. -/
theorem C7_completion_exactly_once (st : ControllerState)
    (req : TranscriptionRequest) (tenv : ThreadEnv)
    (hcb : tenv.hasCompletionCallback = true) :
    (transcription_thread_target st req tenv).completions.length = 1 ∧
    (transcription_thread_target st req tenv).completions.map Prod.snd = [st] ∧
    (transcription_thread_target st req tenv).finalState.is_running = false ∧
    (st.is_running = true →
      ∀ (req2 : TranscriptionRequest) (vst : VideoStat) (ost : OutputStat),
        (start_transcription st req2 vst ost).1 = .error .alreadyRunning) := by
  refine ⟨?_, ?_, ?_, ?_⟩
  · rcases tenv with ⟨outcome, save, hascb⟩
    cases outcome <;> simp_all [transcription_thread_target]
  · rcases tenv with ⟨outcome, save, hascb⟩
    cases outcome <;> simp_all [transcription_thread_target]
  · rcases tenv with ⟨outcome, save, hascb⟩
    cases outcome <;> simp [transcription_thread_target, reset_state]
  · intro h req2 vst ost
    rw [start_transcription, if_pos h]

/-- Witness for C7: the successful concrete run. -/
theorem C7_witness :
    (transcription_thread_target runningStateA reqA threadEnvA).completions.length
        = 1 ∧
    (transcription_thread_target runningStateA reqA threadEnvA).completions.map
        Prod.snd = [runningStateA] ∧
    (transcription_thread_target runningStateA reqA
        threadEnvA).finalState.is_running = false ∧
    (runningStateA.is_running = true →
      ∀ (req2 : TranscriptionRequest) (vst : VideoStat) (ost : OutputStat),
        (start_transcription runningStateA req2 vst ost).1 =
          .error .alreadyRunning) :=
  C7_completion_exactly_once runningStateA reqA threadEnvA rfl

/-- **C7** counterexample to the claim as stated: after an accepted start the
completion callback is invoked while the controller still reports the run as
active (the reset happens after the callback, not before or atomically with
it), so a caller invoking `start` from within the completion callback
receives `AlreadyRunningError`. -/
theorem C7_counterexample :
    (start_transcription idleState reqA goodVideoStat goodOutputStat).1 =
      .ok reqA ∧
    (start_transcription idleState reqA goodVideoStat goodOutputStat).2 =
      runningStateA ∧
    (transcription_thread_target runningStateA reqA threadEnvA).completions.map
        Prod.snd = [runningStateA] ∧
    runningStateA.is_running = true ∧
    (start_transcription runningStateA reqA goodVideoStat goodOutputStat).1 =
      .error .alreadyRunning :=
  ⟨rfl, rfl, rfl, rfl, rfl⟩

/-- **C8** counterexample to the claim as stated: a source file whose
extension is unsupported AND whose size is below the minimum produces a
single aggregated message — the extension failure only.  The size failure is
silently masked, so validation does not aggregate "every failed check": the
per-category validators stop at their first failing sub-check. -/
theorem C8_counterexample :
    (validate_transcription_request "clip.xyz" "out.txt" "txt" (some true)
        ⟨true, true, true, 500⟩ goodOutputStat).2 =
      ["Video file: Unsupported file format: .xyz"] ∧
    500 < MIN_FILE_SIZE ∧
    ".xyz" ∉ SUPPORTED_EXTENSIONS :=
  ⟨rfl, by norm_num [MIN_FILE_SIZE], by decide⟩

/-- **C8** (amended): when any validation category fails, `start` returns the
aggregated `ValidationError` synchronously — the state is unchanged and no
worker is spawned — and the aggregate contains one message for every failed
category (source file, output path, format enum, verbose type), each category
contributing the message of its first failing sub-check. -/
theorem C8_validation_aggregation (st : ControllerState)
    (req : TranscriptionRequest) (vst : VideoStat) (ost : OutputStat)
    (hidle : st.is_running = false) :
    ((validate_transcription_request req.video_path req.output_path
        req.output_format req.verbose vst ost).1 = false →
      start_transcription st req vst ost =
        (.error (.validationFailed
          (validate_transcription_request req.video_path req.output_path
            req.output_format req.verbose vst ost).2), st)) ∧
    ((validate_video_file req.video_path vst).is_valid = false →
      ("Video file: " ++
          (validate_video_file req.video_path vst).error_message.getD "") ∈
        (validate_transcription_request req.video_path req.output_path
          req.output_format req.verbose vst ost).2) ∧
    ((validate_output_path req.output_path ost).is_valid = false →
      ("Output path: " ++
          (validate_output_path req.output_path ost).error_message.getD "") ∈
        (validate_transcription_request req.video_path req.output_path
          req.output_format req.verbose vst ost).2) ∧
    ((validate_output_format req.output_format).is_valid = false →
      ("Output format: " ++
          (validate_output_format req.output_format).error_message.getD "") ∈
        (validate_transcription_request req.video_path req.output_path
          req.output_format req.verbose vst ost).2) ∧
    ((validate_verbose_mode req.verbose).is_valid = false →
      ("Verbose mode: " ++
          (validate_verbose_mode req.verbose).error_message.getD "") ∈
        (validate_transcription_request req.video_path req.output_path
          req.output_format req.verbose vst ost).2) := by
  refine ⟨?_, ?_, ?_, ?_, ?_⟩
  · intro hv
    rw [start_transcription, if_neg (by simp [hidle])]
    dsimp only
    rw [if_pos (by simp [hv])]
  · intro h
    simp [validate_transcription_request, h]
  · intro h
    simp [validate_transcription_request, h]
  · intro h
    simp [validate_transcription_request, h]
  · intro h
    simp [validate_transcription_request, h]

/-- Witness for C8: a bad extension together with a bad format enum — both
categories appear in the aggregate, and the idle-state start fails
synchronously with exactly that aggregate. -/
theorem C8_witness :
    ((validate_transcription_request "clip.xyz" "out.txt" "xml" (some true)
        ⟨true, true, true, 4096⟩ goodOutputStat).1 = false →
      start_transcription idleState ⟨"clip.xyz", "out.txt", "xml", some true, 0⟩
          ⟨true, true, true, 4096⟩ goodOutputStat =
        (.error (.validationFailed
          (validate_transcription_request "clip.xyz" "out.txt" "xml" (some true)
            ⟨true, true, true, 4096⟩ goodOutputStat).2), idleState)) ∧
    ((validate_video_file "clip.xyz" ⟨true, true, true, 4096⟩).is_valid = false →
      ("Video file: " ++
          (validate_video_file "clip.xyz"
            ⟨true, true, true, 4096⟩).error_message.getD "") ∈
        (validate_transcription_request "clip.xyz" "out.txt" "xml" (some true)
          ⟨true, true, true, 4096⟩ goodOutputStat).2) ∧
    ((validate_output_format "xml").is_valid = false →
      ("Output format: " ++ (validate_output_format "xml").error_message.getD "")
        ∈ (validate_transcription_request "clip.xyz" "out.txt" "xml" (some true)
            ⟨true, true, true, 4096⟩ goodOutputStat).2) := by
  have h := C8_validation_aggregation idleState
    ⟨"clip.xyz", "out.txt", "xml", some true, 0⟩ ⟨true, true, true, 4096⟩
    goodOutputStat rfl
  exact ⟨h.1, h.2.1, h.2.2.2.1⟩

/-- **C9** (evidence for the code bug): `transcribe_video` defines the
per-frame progress sink (`audio_progress_callback`) but never passes it to
`audio.write_audiofile`.  At a run whose cancellation event is set during the
audio write: the write still runs to completion, the run only notices the
cancellation at the next stage check, and no progress event in the 50–70
band is ever emitted (the run's full emission list is `[10, 30, 50, 80]`).
The last two conjuncts evaluate the dead sink itself: mid-write it would
report 60 (inside the 50–70 band) and would return `false` once the
cancellation event is set. -/
theorem C9_write_sink_never_wired :
    (transcribe_video "talk.mp4" cancelDuringWriteEnvA).audioWriteCompleted =
      true ∧
    (transcribe_video "talk.mp4" cancelDuringWriteEnvA).result.error_message =
      some "Transcription was cancelled by user" ∧
    (transcribe_video "talk.mp4" cancelDuringWriteEnvA).emitted =
      [10, 30, 50, 80] ∧
    audio_progress_callback false 100 50 = (some 60, true) ∧
    audio_progress_callback true 100 50 = (none, false) :=
  ⟨rfl, rfl, rfl, by norm_num [audio_progress_callback], rfl⟩

/-- **C10** counterexample to the claim as stated: for the all-silent run the
engine's result is indeed `success=true` with an empty transcript, but the
completion callback delivered after the runner's persistence step reports
`success=false` — `save_transcript` rejects the empty transcript, and the
runner downgrades the result to the "completed but failed to save" failure. -/
theorem C10_counterexample :
    (transcribe_video "silent.mp4" silentEnvA).result.success = true ∧
    (transcribe_video "silent.mp4" silentEnvA).result.transcript = "" ∧
    (transcription_thread_target runningStateA reqA
        ⟨.ok (transcribe_video "silent.mp4" silentEnvA).result, ⟨true, true⟩,
          true⟩).completions.map (fun c => (c.1.success, c.1.error_message)) =
      [(false,
        some "Transcription completed but failed to save to: out.txt")] := by
  have h : (transcribe_video "silent.mp4" silentEnvA).result =
      ⟨true, "", none, 3, none⟩ := by
    norm_num [transcribe_video, silentEnvA, transcribe_audio_file_optimized,
      numChunks, chunk_duration, chunkLoop, LoopOut.prepend, cancelAt]
    decide
  refine ⟨by rw [h], by rw [h], ?_⟩
  rw [h]
  rfl

/-- **C10** (amended): for every input with an audio track whose audio is
entirely silence (every chunk raises `UnrecognizedError`), the engine
completes with `success=true` and an empty transcript; but the runner's save
step rejects the empty transcript, so the completion callback reports
`success=false` with the save-failure message (transcript preserved empty) —
the all-silent case is a success at the engine boundary and a save failure at
the completion callback. -/
theorem C10_all_silent (p : String) (env : EngineEnv) (dur : ℚ)
    (st : ControllerState) (req : TranscriptionRequest) (fx : SaveFx)
    (hf : env.fileExists = true) (hl : env.loadResult = .ok ())
    (ha : env.audioTrack = some ()) (hw : env.writeResult = .ok ())
    (hcan : env.cancelFrom = none) (hdur : env.recog.duration = some dur)
    (hsilent : ∀ i, chunkOutcome env.recog dur i = .unknownValue) :
    (transcribe_video p env).result.success = true ∧
    (transcribe_video p env).result.transcript = "" ∧
    (transcription_thread_target st req
        ⟨.ok (transcribe_video p env).result, fx, true⟩).completions.map
        (fun c => (c.1.success, c.1.error_message)) =
      [(false, some ("Transcription completed but failed to save to: " ++
        req.output_path))] := by
  have hr : ∀ i m, chunkOutcome env.recog dur i ≠ .requestError m := by
    intro i m h
    rw [hsilent i] at h
    exact RecognitionOutcome.noConfusion h
  have hparts : (processedChunks dur).filterMap (okPart env.recog dur) = [] := by
    apply List.filterMap_eq_nil_iff.mpr
    intro i _
    simp [okPart, hsilent i]
  have hres : (transcribe_video p env).result = ⟨true, "", none, env.elapsed, none⟩ := by
    rw [transcribe_video_recognition p env hf hl ha hw hcan,
      rec_clean env.recog _ dur hdur (fun _ => rfl) hr]
    dsimp only
    rw [hparts]
    rfl
  refine ⟨by rw [hres], by rw [hres], ?_⟩
  rw [hres]
  simp [transcription_thread_target, save_transcript]

/-- Witness for C10 at the concrete all-silent run. -/
theorem C10_witness :
    (transcribe_video "silent.mp4" silentEnvA).result.success = true ∧
    (transcribe_video "silent.mp4" silentEnvA).result.transcript = "" ∧
    (transcription_thread_target runningStateA reqA
        ⟨.ok (transcribe_video "silent.mp4" silentEnvA).result, ⟨true, true⟩,
          true⟩).completions.map (fun c => (c.1.success, c.1.error_message)) =
      [(false, some ("Transcription completed but failed to save to: " ++
        reqA.output_path))] :=
  C10_all_silent "silent.mp4" silentEnvA 60 runningStateA reqA ⟨true, true⟩
    rfl rfl rfl rfl rfl rfl (fun _ => rfl)

end V2T
